import Mathlib

/-!
# Verification of the go-cache-prog core

Shallow embedding of the go-cache-prog repository: the local disk cache
provider (`pkg/provider/local`), the tiered COS provider
(`pkg/provider/cos`), and the protocol dispatch engine (`pkg/cache`).

Modelling conventions:
* Byte strings (file contents, payloads, wire keys) are Lean `String`s,
  one `Char` per byte.  All inputs of interest are ASCII.
* The file system below the cache directory is a finite association list
  from structured paths (`FsPath`) to entries (`FsEntry`).  `FsPath`
  captures `filepath.Join(cacheDir, "action"/"object", id)` for clean
  path-component ids, including the special case `id = ""`, where Go's
  `Join` collapses the empty component and the path denotes the fixed
  subdirectory itself.  `filepath.Abs` is the identity because
  `NewProvider` cleans the cache dir and we take it to be absolute.
* Fallible Go calls return `Option`/pairs with `Option Err`, mirroring
  Go's multi-value returns.  Error message strings are abbreviated; the
  claims never depend on the exact text.
-/

namespace GoCacheProg

/-- Go `error` values, abbreviated to their message. -/
abbrev Err := String

/-! ## Decimal formatting and parsing (`fmt %d`, `strconv.ParseInt`) -/

/-- The ASCII character of a single decimal digit. -/
def digitChar (n : Nat) : Char := Char.ofNat (48 + n)

/-- Decimal digits of `n`, most significant first, by structural
recursion on a fuel bound (any `fuel > n` is exact). -/
def natToDecListAux : Nat → Nat → List Char
  | 0, _ => []
  | fuel + 1, n =>
    if n < 10 then [digitChar n]
    else natToDecListAux fuel (n / 10) ++ [digitChar (n % 10)]

/-- Decimal digit list of a natural number, most significant first;
models the output of Go's `fmt` verb `%d` for a non-negative `int64`. -/
def natToDecList (n : Nat) : List Char := natToDecListAux (n + 1) n

/-- Decimal string of a natural number (`fmt "%d"`). -/
def natToDec (n : Nat) : String := String.mk (natToDecList n)

/-- Value of an ASCII decimal digit, `none` for any other character. -/
def decDigit? (c : Char) : Option Nat :=
  if 48 ≤ c.toNat ∧ c.toNat ≤ 57 then some (c.toNat - 48) else none

/-- Fold decimal digits onto an accumulator; `none` on a non-digit. -/
def parseDecAux : Nat → List Char → Option Nat
  | acc, [] => some acc
  | acc, c :: cs =>
    match decDigit? c with
    | none => none
    | some d => parseDecAux (10 * acc + d) cs

/-- Parse a non-empty all-digit character list. -/
def parseDecDigits : List Char → Option Nat
  | [] => none
  | l => parseDecAux 0 l

/-- Model of Go `strconv.ParseInt(s, 10, 64)`: optional sign, at least
one decimal digit, result within the `int64` range; `none` stands for a
non-nil error (including `ErrRange`, since every caller in the source
only checks `err != nil`). -/
def goParseInt64 (s : String) : Option Int :=
  match s.data with
  | [] => none
  | c :: cs =>
    if c = '-' then
      (parseDecDigits cs).bind fun n =>
        if (n : Int) ≤ 2 ^ 63 then some (-(n : Int)) else none
    else if c = '+' then
      (parseDecDigits cs).bind fun n =>
        if (n : Int) < 2 ^ 63 then some ((n : Int)) else none
    else
      (parseDecDigits (c :: cs)).bind fun n =>
        if (n : Int) < 2 ^ 63 then some ((n : Int)) else none

/-! ## `strings.SplitN(s, ":", 2)` and the marker-file format -/

/-- Split a character list at the first colon: the part before it and,
when a colon exists, the remainder after it. -/
def splitN2ColonList : List Char → List Char × Option (List Char)
  | [] => ([], none)
  | c :: cs =>
    if c = ':' then ([], some cs)
    else
      let (a, b) := splitN2ColonList cs
      (c :: a, b)

/-- Model of Go `strings.SplitN(s, ":", 2)`: one element when `s` has no
colon, otherwise the part before the first colon and everything after it. -/
def goSplitN2 (s : String) : List String :=
  match splitN2ColonList s.data with
  | (a, none) => [String.mk a]
  | (a, some b) => [String.mk a, String.mk b]

/-- Parse a marker file's content `objectId:size` exactly as
`local.provider.Get` does: `strings.SplitN(.., ":", 2)` must yield two
parts and the second must satisfy `strconv.ParseInt(.., 10, 64)`. -/
def markerParse (m : String) : Option (String × Int) :=
  match goSplitN2 m with
  | [objectId, sizeStr] => (goParseInt64 sizeStr).map fun sz => (objectId, sz)
  | _ => none

/-! ## Hex codec (`encoding/hex`) -/

/-- Lowercase hex digit character. -/
def hexDigitChar (n : Nat) : Char :=
  if n < 10 then Char.ofNat (48 + n) else Char.ofNat (87 + n)

/-- Model of `hex.EncodeToString`: two lowercase hex digits per byte. -/
def hexEnc (s : String) : String :=
  String.mk (s.data.foldr
    (fun c acc => hexDigitChar (c.toNat / 16 % 16) :: hexDigitChar (c.toNat % 16) :: acc)
    [])

/-- Value of one hex digit (`0-9`, `a-f`, `A-F`), else `none`. -/
def hexDecDigit? (c : Char) : Option Nat :=
  if 48 ≤ c.toNat ∧ c.toNat ≤ 57 then some (c.toNat - 48)
  else if 97 ≤ c.toNat ∧ c.toNat ≤ 102 then some (c.toNat - 87)
  else if 65 ≤ c.toNat ∧ c.toNat ≤ 70 then some (c.toNat - 55)
  else none

/-- Decode pairs of hex digits into bytes; `none` on odd length or any
non-hex character, as `hex.DecodeString` returns a non-nil error there. -/
def hexDecList : List Char → Option (List Char)
  | [] => some []
  | [_] => none
  | a :: b :: rest =>
    match hexDecDigit? a, hexDecDigit? b, hexDecList rest with
    | some x, some y, some r => some (Char.ofNat (16 * x + y) :: r)
    | _, _, _ => none

/-- Model of `hex.DecodeString` (the engine's `dec`). -/
def hexDec (s : String) : Option String := (hexDecList s.data).map String.mk

/-! ## File-system model for the local provider -/

/-- One entry in the cache directory: a regular file with its content,
or a directory with its (platform-determined) stat size. -/
inductive FsEntry where
  | file (content : String)
  | dir (size : Int)
deriving DecidableEq

/-- Paths produced by the local provider's `actionPath`/`objPath`:
`filepath.Join(cacheDir, "action"/"object", id)`.  For a clean non-empty
path-component `id` this is the file `cacheDir/<sub>/<id>`; for `id = ""`
Go's `Join` drops the empty component and the path is the subdirectory
`cacheDir/<sub>` itself (created by `NewProvider`). -/
inductive FsPath where
  | actionDir
  | objectDir
  | actionFile (name : String)
  | objectFile (name : String)
deriving DecidableEq

/-- State of one local provider: its cleaned absolute cache directory
and the entries below it. -/
structure LocalState where
  cacheDir : String
  files : List (FsPath × FsEntry)
deriving DecidableEq

/-- Look up the entry at a path (`os.Stat` / `os.ReadFile` target). -/
def lookupFile (s : LocalState) (p : FsPath) : Option FsEntry :=
  (s.files.find? fun pr => pr.1 = p).map Prod.snd

/-- Write a regular file at a path, replacing any previous entry
(`os.Create` truncates, `os.WriteFile` overwrites). -/
def writeFile (s : LocalState) (p : FsPath) (content : String) : LocalState :=
  { s with files := (p, FsEntry.file content) :: s.files.filter fun pr => ¬(pr.1 = p) }

/-- Result of `fi.Size()` on a stat result: byte length for files, the stored stat
size for directories. -/
def entrySize : FsEntry → Int
  | .file c => (c.length : Int)
  | .dir sz => sz

/-- Model of `local.provider.actionPath`. -/
def actionPath (actionId : String) : FsPath :=
  if actionId = "" then .actionDir else .actionFile actionId

/-- Model of `local.provider.objPath`. -/
def objPath (objectId : String) : FsPath :=
  if objectId = "" then .objectDir else .objectFile objectId

/-- The absolute path string of an `FsPath` (what `filepath.Abs` on the
joined path yields). -/
def render (cacheDir : String) : FsPath → String
  | .actionDir => cacheDir ++ "/action"
  | .objectDir => cacheDir ++ "/object"
  | .actionFile n => cacheDir ++ "/action/" ++ n
  | .objectFile n => cacheDir ++ "/object/" ++ n

/-- An `io.Reader` body as consumed once by `io.Copy`: the bytes it
delivers, then either EOF (`berr = none`) or a read error. -/
structure BodyStream where
  bytes : String
  berr : Option Err
deriving DecidableEq

/-! ## Local provider (`pkg/provider/local`) -/

/-- Model of `local.provider.KnownCommands`. -/
def knownCommands : List String := ["get", "put", "close"]

/-- Model of `local.provider.Get`: returns `(objectId, diskpath, err)`; the miss
result `notFound()` is `("", "", nil)`. -/
def localGet (s : LocalState) (actionId : String) : String × String × Option Err :=
  match lookupFile s (actionPath actionId) with
  | none => ("", "", none)
  | some (.dir _) => ("", "", some "read: is a directory")
  | some (.file data) =>
    match markerParse data with
    | none => ("", "", none)
    | some (objectId, size) =>
      match lookupFile s (objPath objectId) with
      | none => ("", "", none)
      | some e =>
        if entrySize e = size then (objectId, render s.cacheDir (objPath objectId), none)
        else ("", "", none)

/-- Model of `local.provider.Put`: create/truncate the object file, copy the
body into it, then record `objectId:size` in the marker file, where
`size` is the byte count actually copied.  Returns
`(newState, diskpath, err)`. -/
def localPut (s : LocalState) (actionId objectId : String) (body : BodyStream) :
    LocalState × String × Option Err :=
  let diskpath := objPath objectId
  match lookupFile s diskpath with
  | some (.dir _) => (s, "", some "open: is a directory")
  | _ =>
    let s1 := writeFile s diskpath body.bytes
    match body.berr with
    | some e => (s1, "", some e)
    | none =>
      match lookupFile s1 (actionPath actionId) with
      | some (.dir _) => (s1, "", some "open: is a directory")
      | _ =>
        (writeFile s1 (actionPath actionId)
          (objectId ++ ":" ++ natToDec body.bytes.length),
         render s.cacheDir diskpath, none)

/-- Model of `local.provider.Close`: always succeeds. -/
def localClose : Option Err := none

/-- Model of `os.Stat` on a rendered disk-path string against the local
state: find the entry whose absolute path equals the given string. -/
def statPath (s : LocalState) (diskpath : String) : Option FsEntry :=
  (s.files.find? fun pr => render s.cacheDir pr.1 = diskpath).map Prod.snd

/-- Whether the entry at `p` is a directory — the state in which
`os.Create` and `os.WriteFile` fail on that path. -/
def isDirAt (s : LocalState) (p : FsPath) : Bool :=
  match lookupFile s p with
  | some (.dir _) => true
  | _ => false

/-! ## Tiered COS provider (`pkg/provider/cos`) -/

/-- A remote object as returned by `s3.GetObject`: its user metadata
(`map[string]*string`) and its body stream (which may fail while being
downloaded). -/
structure RemoteObject where
  metadata : List (String × Option String)
  body : BodyStream
deriving DecidableEq

/-- The remote bucket contents, keyed by object key; `none` models a
`GetObject` error (entry absent or remote unavailable). -/
abbrev RemoteStore := String → Option RemoteObject

/-- Go map lookup on the metadata: `found` and the (nullable) value. -/
def metaLookup (m : List (String × Option String)) (k : String) : Option (Option String) :=
  (m.find? fun pr => pr.1 = k).map Prod.snd

/-- Model of `cos.lookUpObjectId`: the `objectid` metadata value, `none` when the
key is absent or its pointer is nil (Go returns `("", false)`). -/
def lookUpObjectId (m : List (String × Option String)) : Option String :=
  match metaLookup m "objectid" with
  | some (some v) => some v
  | _ => none

/-- Model of `cos.lookUpSize`: the `size` metadata value parsed with
`strconv.ParseInt(.., 10, 64)`; `none` when absent, nil, or unparsable
(Go returns `(-1, false)`). -/
def lookUpSize (m : List (String × Option String)) : Option Int :=
  match metaLookup m "size" with
  | some (some v) => goParseInt64 v
  | _ => none

/-- Model of `cos.provider.actionKey`: the fixed remote namespacing. -/
def cosActionKey (actionId : String) : String := "action/" ++ actionId

/-- Model of `cos.provider.Get`: local first; on a local miss, look up the remote
entry, validate its metadata, promote the body into the local store via
`localPut`, and re-check the promoted size.  Returns the (possibly
changed) local state and the `(objectId, diskpath, err)` triple. -/
def cosGet (s : LocalState) (remote : RemoteStore) (actionId : String) :
    LocalState × String × String × Option Err :=
  match localGet s actionId with
  | (_, _, some e) => (s, "", "", some e)
  | (objectId, diskpath, none) =>
    if objectId ≠ "" ∧ diskpath ≠ "" then (s, objectId, diskpath, none)
    else
      match remote (cosActionKey actionId) with
      | none => (s, "", "", none)
      | some res =>
        match lookUpObjectId res.metadata with
        | none => (s, "", "", none)
        | some objectId2 =>
          match lookUpSize res.metadata with
          | none => (s, "", "", none)
          | some size =>
            match localPut s actionId objectId2 res.body with
            | (s2, _, some _) => (s2, "", "", none)
            | (s2, diskpath2, none) =>
              match statPath s2 diskpath2 with
              | none => (s2, "", "", some "stat failed")
              | some e =>
                if entrySize e = size then (s2, objectId2, diskpath2, none)
                else (s2, "", "", none)

/-- Model of `cos.provider.Put`: write to the local store first; skip the remote
upload when the resulting size is below `MinUploadSize`, otherwise
upload (the upload's outcome is the environment parameter `uploadErr`).
Returns the new local state, Go's `(diskpath, err)` pair, and whether a
remote `PutObject` call was made. -/
def cosPut (s : LocalState) (minUploadSize : Int) (uploadErr : Option Err)
    (actionId objectId : String) (body : BodyStream) :
    LocalState × (String × Option Err) × Bool :=
  match localPut s actionId objectId body with
  | (s2, _, some e) => (s2, ("", some e), false)
  | (s2, diskpath, none) =>
    match statPath s2 diskpath with
    | none => (s2, ("", some "stat failed"), false)
    | some e =>
      let size := entrySize e
      if size < minUploadSize then (s2, (diskpath, none), false)
      else (s2, (diskpath, uploadErr), true)

/-! ## Protocol engine (`pkg/cache`) -/

/-- Model of `cache.progRequest` (the `Body` reader is carried separately by the
dispatched task). -/
structure ProgRequest where
  id : Int
  command : String
  actionID : String
  outputID : String
  bodySize : Int
deriving DecidableEq

/-- Model of `cache.progResponse`, without the handshake and error fields and
without the modification time (wall-clock time is outside the model). -/
structure ProgResponse where
  id : Int
  miss : Bool := false
  outputID : String := ""
  size : Int := 0
  diskPath : String := ""
deriving DecidableEq

/-- One JSON value on the input stream: an operation record or a raw
byte-array payload (a dependent `put` body). -/
inductive StreamItem where
  | req (r : ProgRequest)
  | bytes (b : String)
deriving DecidableEq

/-- A worker task dispatched by the reader loop via `g.Go`. -/
inductive Task where
  | get (r : ProgRequest)
  | put (r : ProgRequest) (body : String)
deriving DecidableEq

/-- How the reader loop of `Handler.Run` finishes: input exhausted,
a fatal error, or a `close` operation. -/
inductive ReaderOutcome where
  | eof
  | errored (e : Err)
  | closed
deriving DecidableEq

/-- Result of one iteration of the reader loop: dispatch a task and
continue on the remaining items, or stop with an outcome. -/
inductive ReadStep1 where
  | dispatch (t : Task) (rest : List StreamItem)
  | halt (o : ReaderOutcome)
deriving DecidableEq

/-- One iteration of the reader loop of `Handler.Run`: decode the next
request (decoding a stray payload value as a request fails); `get`
requires a non-empty `ActionID`; `put` requires a non-empty `OutputID`
and, when `BodySize > 0`, immediately decodes the dependent payload from
the same stream and aborts on a length mismatch; `close` stops the loop;
any other command is fatal. -/
def readerStep1 : List StreamItem → ReadStep1
  | [] => .halt .eof
  | .bytes _ :: _ => .halt (.errored "failed to decode")
  | .req r :: rest =>
    if r.command = "get" then
      if r.actionID = "" then .halt (.errored "invalid ActionID")
      else .dispatch (.get r) rest
    else if r.command = "put" then
      if r.outputID = "" then .halt (.errored "invalid OutputID")
      else if 0 < r.bodySize then
        match rest with
        | .bytes b :: rest2 =>
          if (b.length : Int) = r.bodySize then .dispatch (.put r b) rest2
          else .halt (.errored "size mismatch")
        | .req _ :: _ => .halt (.errored "failed to decode body")
        | [] => .halt (.errored "EOF while decoding body")
      else .dispatch (.put r "") rest
    else if r.command = "close" then .halt .closed
    else .halt (.errored "unsupported command")

/-- The whole reader loop of `Handler.Run`, run to completion: the tasks
it dispatches, in stream order, and how it finishes.  The per-iteration
logic is exactly `readerStep1`, transcribed here so the recursion is
structural (see `readerLoop_via_step` for the formal link). -/
def readerLoop : List StreamItem → List Task × ReaderOutcome
  | [] => ([], .eof)
  | .bytes _ :: _ => ([], .errored "failed to decode")
  | .req r :: rest =>
    if r.command = "get" then
      if r.actionID = "" then ([], .errored "invalid ActionID")
      else (Task.get r :: (readerLoop rest).1, (readerLoop rest).2)
    else if r.command = "put" then
      if r.outputID = "" then ([], .errored "invalid OutputID")
      else if 0 < r.bodySize then
        match rest with
        | .bytes b :: rest2 =>
          if (b.length : Int) = r.bodySize then
            (Task.put r b :: (readerLoop rest2).1, (readerLoop rest2).2)
          else ([], .errored "size mismatch")
        | .req _ :: _ => ([], .errored "failed to decode body")
        | [] => ([], .errored "EOF while decoding body")
      else (Task.put r "" :: (readerLoop rest).1, (readerLoop rest).2)
    else if r.command = "close" then ([], .closed)
    else ([], .errored "unsupported command")

/-- Modelled from the spec: the `pkg/errgroup` package is not part of
the provided sources.  Per the spec, `errgroup.Wait` returns the first
non-nil error returned by any task (the session's outcome), and `Run`
returns `Wait`'s result.  Here `closeErr` is the provider `Close`
result the reader returns on a `close` operation, and `workerErrs` are
the results of the dispatched workers. -/
def runHasError (input : List StreamItem) (closeErr : Option Err)
    (workerErrs : List (Option Err)) : Bool :=
  (match (readerLoop input).2 with
   | .errored _ => true
   | .closed => closeErr.isSome
   | .eof => false) || workerErrs.any Option.isSome

/-- Model of `Handler.handleGet` composed with the local provider: hex-encode the
action key, call `Get`, report a miss when both results are empty,
otherwise hex-decode the object id (a decode failure is a worker error)
and stat the disk path for the hit response.  Returns Go's
`(*progResponse, error)` pair. -/
def handleGetLocal (s : LocalState) (req : ProgRequest) :
    Option ProgResponse × Option Err :=
  match localGet s (hexEnc req.actionID) with
  | (_, _, some e) => (none, some ("failed to obtain entry from cache: " ++ e))
  | (pid, diskpath, none) =>
    if pid = "" ∧ diskpath = "" then (some { id := req.id, miss := true }, none)
    else
      match hexDec pid with
      | none => (none, some "invalid hex in object id")
      | some outputID =>
        match statPath s diskpath with
        | none => (none, some "stat failed")
        | some e =>
          (some { id := req.id, outputID := outputID, size := entrySize e,
                  diskPath := diskpath }, none)

/-! ## Engine concurrency model (`Handler.Run` with the errgroup)

Modelled from the spec: `pkg/errgroup` is not part of the provided
sources.  The spec describes it as a worker pool of capacity
`h.workers + 1` where spawning blocks while the pool is saturated; the
reader task occupies one slot while it is reading, so at most
`h.workers` worker tasks run at once.  The reader's per-iteration logic
is `readerStep1` (from the source); on a `close` operation the reader
calls `provider.Close` directly and returns (`defer g.Done()` releases
its slot), and `Run` returns `g.Wait()` only after every task finished. -/

/-- Whether the reader finished because of a `close` operation. -/
def isClosedOutcome : ReaderOutcome → Bool
  | .closed => true
  | _ => false

/-- An instantaneous state of a running session. -/
structure EngState where
  /-- Stream items not yet consumed by the reader. -/
  pending : List StreamItem
  /-- The reader task is still reading (and holds one pool slot). -/
  readerActive : Bool
  /-- Number of worker tasks currently executing storage calls. -/
  running : Nat
  /-- Whether `provider.Close` has been invoked. -/
  closeCalled : Bool
  /-- Whether `Run` has returned. -/
  terminated : Bool
deriving DecidableEq

/-- Session state right after the handshake, before any operation. -/
def initEngState (input : List StreamItem) : EngState :=
  { pending := input, readerActive := true, running := 0,
    closeCalled := false, terminated := false }

/-- Interleaving steps of a session with worker budget `N`. -/
inductive EngStep (N : Nat) : EngState → EngState → Prop
  /-- The reader decodes one operation and spawns a worker; `g.Go`
  admits it only while reader (1 slot) plus workers stay within the
  pool capacity `N + 1`. -/
  | dispatch (s : EngState) (t : Task) (rest : List StreamItem) :
      s.readerActive = true → s.running < N →
      readerStep1 s.pending = .dispatch t rest →
      EngStep N s { s with pending := rest, running := s.running + 1 }
  /-- The reader stops (EOF, fatal error, or `close`); on `close` it
  calls `provider.Close` before returning, then releases its slot. -/
  | readerHalt (s : EngState) (o : ReaderOutcome) :
      s.readerActive = true → readerStep1 s.pending = .halt o →
      EngStep N s { s with readerActive := false,
                           closeCalled := s.closeCalled || isClosedOutcome o }
  /-- A worker finishes its storage call and releases its slot. -/
  | workerDone (s : EngState) :
      0 < s.running →
      EngStep N s { s with running := s.running - 1 }
  /-- Step where `g.Wait` returns once the reader and every worker finished. -/
  | terminate (s : EngState) :
      s.readerActive = false → s.running = 0 →
      EngStep N s { s with terminated := true }

/-- Session states reachable from the start of a session. -/
inductive EngReach (N : Nat) (input : List StreamItem) : EngState → Prop
  | init : EngReach N input (initEngState input)
  | step {s s' : EngState} : EngReach N input s → EngStep N s s' → EngReach N input s'

/-! ## Helper lemma: the loop iterates `readerStep1` -/

theorem readerLoop_via_step (l : List StreamItem) :
    readerLoop l =
      match readerStep1 l with
      | .halt o => ([], o)
      | .dispatch t rest => (t :: (readerLoop rest).1, (readerLoop rest).2) := by
  cases l with
  | nil => rfl
  | cons x tail =>
    cases x with
    | bytes b => rfl
    | req r =>
      rw [readerLoop.eq_def]
      unfold readerStep1
      simp only []
      split_ifs <;> try rfl
      cases tail with
      | nil => rfl
      | cons y tail2 =>
        cases y with
        | bytes b =>
          simp only []
          split_ifs <;> rfl
        | req r2 => rfl

/-! ## Helper lemmas: the file-system map -/

theorem find?_filter_ne {l : List (FsPath × FsEntry)} {p q : FsPath} (h : q ≠ p) :
    (l.filter fun pr => ¬(pr.1 = q)).find? (fun pr => pr.1 = p) =
      l.find? fun pr => pr.1 = p := by
  induction l with
  | nil => rfl
  | cons a l ih =>
    by_cases ha : a.1 = q
    · have hap : ¬(a.1 = p) := fun hp => h (ha.symm.trans hp)
      simp_all [List.filter_cons, List.find?_cons]
    · by_cases hap : a.1 = p <;> simp_all [List.filter_cons, List.find?_cons]

theorem lookupFile_writeFile_self (s : LocalState) (p : FsPath) (c : String) :
    lookupFile (writeFile s p c) p = some (.file c) := by
  simp [lookupFile, writeFile, List.find?_cons]

theorem lookupFile_writeFile_ne (s : LocalState) {p q : FsPath} (c : String)
    (h : q ≠ p) : lookupFile (writeFile s q c) p = lookupFile s p := by
  unfold lookupFile writeFile
  rw [show ((q, FsEntry.file c) :: (s.files.filter fun pr => ¬(pr.1 = q))).find?
        (fun pr => pr.1 = p) =
      (s.files.filter fun pr => ¬(pr.1 = q)).find? (fun pr => pr.1 = p) from by
    rw [List.find?_cons]
    simp [h]]
  rw [find?_filter_ne h]

theorem cacheDir_writeFile (s : LocalState) (p : FsPath) (c : String) :
    (writeFile s p c).cacheDir = s.cacheDir := rfl

theorem actionPath_ne_objPath (a o : String) : actionPath a ≠ objPath o := by
  unfold actionPath objPath
  split <;> split <;> simp

/-! ## Helper lemmas: rendered paths -/

theorem render_length (cd : String) (p : FsPath) : 7 ≤ (render cd p).length := by
  have h1 : ("/action" : String).length = 7 := rfl
  have h2 : ("/object" : String).length = 7 := rfl
  have h3 : ("/action/" : String).length = 8 := rfl
  have h4 : ("/object/" : String).length = 8 := rfl
  cases p <;> simp [render, String.length_append, h1, h2, h3, h4] <;> omega

theorem render_ne_empty (cd : String) (p : FsPath) : render cd p ≠ "" := by
  intro h
  have := congrArg String.length h
  have h7 := render_length cd p
  simp at this
  omega

theorem render_action_ne_obj (cd a o : String) :
    render cd (actionPath a) ≠ render cd (objPath o) := by
  intro h
  have hd := congrArg String.data h
  unfold actionPath objPath at hd
  split at hd <;> split at hd <;>
    simp only [render, String.data_append] at hd <;>
    [skip; rw [List.append_assoc] at hd;
     rw [List.append_assoc] at hd; rw [List.append_assoc, List.append_assoc] at hd] <;>
    have := List.append_cancel_left hd <;> simp [String.data] at this

/-! ## Helper lemmas: decimal round-trip -/

theorem parseDecAux_append (acc : Nat) (l1 l2 : List Char) :
    parseDecAux acc (l1 ++ l2) =
      (parseDecAux acc l1).bind fun a => parseDecAux a l2 := by
  induction l1 generalizing acc with
  | nil => rfl
  | cons c cs ih =>
    simp only [List.cons_append, parseDecAux]
    cases decDigit? c with
    | none => rfl
    | some d => exact ih _

theorem decDigit?_digitChar {d : Nat} (h : d < 10) :
    decDigit? (digitChar d) = some d := by
  interval_cases d <;> decide

theorem natToDecListAux_ne_nil {fuel n : Nat} (h : n < fuel) :
    natToDecListAux fuel n ≠ [] := by
  cases fuel with
  | zero => omega
  | succ fuel =>
    simp only [natToDecListAux]
    split <;> simp

theorem parseDecAux_natToDecListAux {fuel n : Nat} (acc : Nat) (h : n < fuel) :
    parseDecAux acc (natToDecListAux fuel n) =
      some (acc * 10 ^ (natToDecListAux fuel n).length + n) := by
  induction fuel generalizing n acc with
  | zero => omega
  | succ fuel ih =>
    by_cases h10 : n < 10
    · simp only [natToDecListAux, if_pos h10, parseDecAux, decDigit?_digitChar h10]
      simp; omega
    · have hdiv : n / 10 < fuel := by omega
      simp only [natToDecListAux, if_neg h10, parseDecAux_append, ih _ hdiv,
        parseDecAux, decDigit?_digitChar (Nat.mod_lt n (by omega)),
        List.length_append, List.length_cons, List.length_nil]
      simp only [Option.some_bind, Nat.zero_add]
      congr 1
      have hdm : 10 * (n / 10) + n % 10 = n := Nat.div_add_mod n 10
      calc 10 * (acc * 10 ^ (natToDecListAux fuel (n / 10)).length + n / 10) + n % 10
          = acc * (10 ^ (natToDecListAux fuel (n / 10)).length * 10)
            + (10 * (n / 10) + n % 10) := by ring
        _ = acc * 10 ^ ((natToDecListAux fuel (n / 10)).length + 1) + n := by
            rw [hdm, pow_succ]

theorem parseDecDigits_natToDecList (n : Nat) :
    parseDecDigits (natToDecList n) = some n := by
  unfold natToDecList
  rcases hl : natToDecListAux (n + 1) n with _ | ⟨c, cs⟩
  · exact absurd hl (natToDecListAux_ne_nil (by omega))
  · have := @parseDecAux_natToDecListAux (n + 1) n 0 (by omega)
    rw [hl] at this
    simpa [parseDecDigits] using this

theorem natToDecListAux_digits {fuel n : Nat} {c : Char}
    (hc : c ∈ natToDecListAux fuel n) : 48 ≤ c.toNat ∧ c.toNat ≤ 57 := by
  induction fuel generalizing n with
  | zero => simp [natToDecListAux] at hc
  | succ fuel ih =>
    simp only [natToDecListAux] at hc
    split at hc
    · simp at hc
      subst hc
      rename_i h10
      interval_cases n <;> decide
    · simp at hc
      rcases hc with hc | hc
      · exact ih hc
      · subst hc
        have : n % 10 < 10 := Nat.mod_lt n (by omega)
        interval_cases h : n % 10 <;> decide

theorem goParseInt64_natToDec {n : Nat} (h : n < 2 ^ 63) :
    goParseInt64 (natToDec n) = some (n : Int) := by
  rcases hl : natToDecList n with _ | ⟨c, cs⟩
  · exact absurd hl (natToDecListAux_ne_nil (by omega))
  · have hcmem : c ∈ natToDecList n := by rw [hl]; simp
    have hdig := natToDecListAux_digits hcmem
    have hminus : ¬(c = '-') := by
      intro hc; rw [hc] at hdig; revert hdig; decide
    have hplus : ¬(c = '+') := by
      intro hc; rw [hc] at hdig; revert hdig; decide
    have hparse := parseDecDigits_natToDecList n
    rw [hl] at hparse
    unfold goParseInt64
    rw [show (natToDec n).data = natToDecList n from rfl, hl]
    simp only []
    rw [if_neg hminus, if_neg hplus, hparse, Option.some_bind]
    rw [if_pos (show (n : Int) < 2 ^ 63 by exact_mod_cast h)]

/-! ## Helper lemmas: the marker format -/

theorem splitN2ColonList_append {l : List Char} (r : List Char) (h : ':' ∉ l) :
    splitN2ColonList (l ++ ':' :: r) = (l, some r) := by
  induction l with
  | nil => simp [splitN2ColonList]
  | cons c cs ih =>
    have hc : ¬(c = ':') := fun hc => h (by simp [hc])
    have hcs : ':' ∉ cs := fun hcs => h (by simp [hcs])
    simp [splitN2ColonList, hc, ih hcs]

theorem markerParse_roundtrip (o : String) {n : Nat} (ho : ':' ∉ o.data)
    (hn : n < 2 ^ 63) :
    markerParse (o ++ ":" ++ natToDec n) = some (o, (n : Int)) := by
  have hdata : (o ++ ":" ++ natToDec n).data = o.data ++ ':' :: (natToDec n).data := by
    simp [String.data_append]
  unfold markerParse goSplitN2
  rw [hdata, splitN2ColonList_append _ ho]
  have : String.mk (natToDec n).data = natToDec n := rfl
  simp only [this, goParseInt64_natToDec hn, Option.map_some]
  rfl

/-! ## Helper lemmas: a successful local `Put` -/

theorem localPut_ok (s : LocalState) (a o payload : String)
    (hobj : isDirAt s (objPath o) = false)
    (hact : isDirAt s (actionPath a) = false) :
    localPut s a o ⟨payload, none⟩ =
      (writeFile (writeFile s (objPath o) payload) (actionPath a)
        (o ++ ":" ++ natToDec payload.length),
       render s.cacheDir (objPath o), none) := by
  unfold localPut
  rcases h1 : lookupFile s (objPath o) with _ | ⟨c⟩ | ⟨d⟩
  · rcases h2 : lookupFile (writeFile s (objPath o) payload) (actionPath a)
        with _ | ⟨c2⟩ | ⟨d2⟩ <;>
      [skip; skip;
       simp [isDirAt,
         (lookupFile_writeFile_ne s payload (Ne.symm (actionPath_ne_objPath a o))).symm.trans h2]
         at hact] <;>
    simp [h1, h2]
  · rcases h2 : lookupFile (writeFile s (objPath o) payload) (actionPath a)
        with _ | ⟨c2⟩ | ⟨d2⟩ <;>
      [skip; skip;
       simp [isDirAt,
         (lookupFile_writeFile_ne s payload (Ne.symm (actionPath_ne_objPath a o))).symm.trans h2]
         at hact] <;>
    simp [h1, h2]
  · simp [isDirAt, h1] at hobj

/-! ## Claim C1: local-store round-trip -/

/-- C1 (counterexample): the round-trip claim fails for every
`objectKey` containing a colon.  With `actionKey = "a"`,
`objectKey = "o:1"`, payload `"hi"`, `Put` succeeds and records the
marker `o:1:2`, but the following `Get` splits that marker at its first
colon, fails to parse `1:2` as a size, and returns a miss instead of
`"o:1"` and the object's disk path. -/
theorem c1_roundtrip_counterexample :
    (localPut { cacheDir := "/c", files := [(.actionDir, .dir 4096), (.objectDir, .dir 4096)] }
        "a" "o:1" ⟨"hi", none⟩).2 = ("/c/object/o:1", none) ∧
    localGet (localPut { cacheDir := "/c", files := [(.actionDir, .dir 4096), (.objectDir, .dir 4096)] }
        "a" "o:1" ⟨"hi", none⟩).1 "a" = ("", "", none) := by
  decide

/-- C1 (amended): for clean path-component keys — `actionKey` and
`objectKey` non-empty, `objectKey` colon-free — a payload of fewer than
`2^63` bytes, and a state whose two target paths are not directories,
`Put(actionKey, objectKey, payload)` succeeds returning the object's
disk path, and the following `Get(actionKey)` returns that same
`objectKey` and the same disk path, whose recorded file content equals
the payload (hence its size is the payload's length). -/
theorem c1_roundtrip_amended (s : LocalState) (a o payload : String)
    (_ha : a ≠ "") (_ho : o ≠ "") (hcolon : ':' ∉ o.data)
    (hlen : payload.length < 2 ^ 63)
    (hobj : isDirAt s (objPath o) = false)
    (hact : isDirAt s (actionPath a) = false) :
    (localPut s a o ⟨payload, none⟩).2 = (render s.cacheDir (objPath o), none) ∧
    localGet (localPut s a o ⟨payload, none⟩).1 a =
      (o, render s.cacheDir (objPath o), none) ∧
    lookupFile (localPut s a o ⟨payload, none⟩).1 (objPath o) = some (.file payload) := by
  rw [localPut_ok s a o payload hobj hact]
  refine ⟨rfl, ?_, ?_⟩
  · unfold localGet
    rw [lookupFile_writeFile_self]
    simp only []
    rw [markerParse_roundtrip o hcolon hlen]
    simp only []
    rw [lookupFile_writeFile_ne _ _ (actionPath_ne_objPath a o), lookupFile_writeFile_self]
    simp [entrySize, writeFile]
  · rw [lookupFile_writeFile_ne _ _ (actionPath_ne_objPath a o), lookupFile_writeFile_self]

/-- C1 (witness for the amended theorem) at a fresh cache directory,
`actionKey = "aa"`, `objectKey = "bb"`, payload `"hi"`. -/
theorem c1_roundtrip_amended_witness :
    (localPut { cacheDir := "/c", files := [(.actionDir, .dir 4096), (.objectDir, .dir 4096)] }
        "aa" "bb" ⟨"hi", none⟩).2 = ("/c/object/bb", none) ∧
    localGet (localPut { cacheDir := "/c", files := [(.actionDir, .dir 4096), (.objectDir, .dir 4096)] }
        "aa" "bb" ⟨"hi", none⟩).1 "aa" = ("bb", "/c/object/bb", none) ∧
    lookupFile (localPut { cacheDir := "/c", files := [(.actionDir, .dir 4096), (.objectDir, .dir 4096)] }
        "aa" "bb" ⟨"hi", none⟩).1 (objPath "bb") = some (.file "hi") :=
  c1_roundtrip_amended _ "aa" "bb" "hi" (by decide) (by decide) (by decide)
    (by decide) (by decide) (by decide)

/-! ## Claim C4: marker/size degradation to a miss -/

/-- C4: whenever the marker file for an action key exists but its
content does not parse as `objectKey:size`, or it parses but the
referenced object entry's size differs from the recorded size, `Get`
returns the miss triple `("", "", nil)` — never a non-nil error. -/
theorem c4_marker_degradation (s : LocalState) (a m : String)
    (hm : lookupFile s (actionPath a) = some (.file m)) :
    (markerParse m = none → localGet s a = ("", "", none)) ∧
    ∀ oid sz e, markerParse m = some (oid, sz) →
      lookupFile s (objPath oid) = some e → entrySize e ≠ sz →
      localGet s a = ("", "", none) := by
  constructor
  · intro hp
    unfold localGet
    rw [hm]
    simp only []
    rw [hp]
  · intro oid sz e hp hl hsz
    unfold localGet
    rw [hm]
    simp only []
    rw [hp]
    simp only []
    rw [hl]
    simp only []
    rw [if_neg hsz]

/-- C4 (witness): a colon-free marker `"junk"` yields a miss, and a
well-formed marker `bb:3` whose object file holds 2 bytes yields a miss. -/
theorem c4_marker_degradation_witness :
    markerParse "junk" = none ∧
    localGet { cacheDir := "/c", files := [(.actionFile "aa", .file "junk")] } "aa"
      = ("", "", none) ∧
    localGet { cacheDir := "/c", files := [(.actionFile "aa", .file "bb:3"), (.objectFile "bb", .file "hi")] } "aa"
      = ("", "", none) :=
  ⟨by decide,
   (c4_marker_degradation _ "aa" "junk" (by decide)).1 (by decide),
   (c4_marker_degradation _ "aa" "bb:3" (by decide)).2 "bb" 3 (.file "hi")
     (by decide) (by decide) (by decide)⟩

/-! ## Claim C9: a non-hex object key aborts `handleGet` -/

/-- C9: when the provider's `Get` reports a hit (not both results
empty, nil error) whose object id does not hex-decode — e.g. a tampered
marker whose object id has non-hex characters but whose object file
passes the size check — the engine's `handleGet` returns a non-nil
error (which the escalation policy turns into a session abort), not a
miss and not a hit. -/
theorem c9_nonhex_objectkey_error (s : LocalState) (req : ProgRequest)
    (pid dp : String)
    (hget : localGet s (hexEnc req.actionID) = (pid, dp, none))
    (hnm : ¬(pid = "" ∧ dp = ""))
    (hhex : hexDec pid = none) :
    handleGetLocal s req = (none, some "invalid hex in object id") := by
  unfold handleGetLocal
  rw [hget]
  simp only []
  rw [if_neg hnm, hhex]

/-- C9 (witness): marker `zz:2` with a 2-byte object file `zz` is a
size-valid hit whose id `"zz"` is not hexadecimal; `handleGet` errors. -/
theorem c9_nonhex_objectkey_error_witness :
    handleGetLocal { cacheDir := "/c", files := [(.actionFile "01", .file "zz:2"), (.objectFile "zz", .file "hi")] } { id := 7, command := "get", actionID := "\x01", outputID := "", bodySize := 0 }
      = (none, some "invalid hex in object id") :=
  c9_nonhex_objectkey_error _ _ "zz" "/c/object/zz" (by decide) (by decide) (by decide)

/-! ## Claim C10: shape of a nil-error `Get` result -/

/-- C10 (counterexample): a marker whose content starts with a colon
(`":4096"`) parses to the empty object id; its object path is the
object subdirectory itself, which stats successfully, and when the
recorded size matches the directory's stat size, `Get` returns the
mixed result `("", "/c/object", nil)` — object key empty, disk path
non-empty, nil error. -/
theorem c10_mixed_result_counterexample :
    localGet { cacheDir := "/c", files := [(.actionDir, .dir 4096), (.objectDir, .dir 4096), (.actionFile "aa", .file ":4096")] } "aa"
      = ("", "/c/object", none) ∧ ("/c/object" : String) ≠ "" := by
  decide

/-- C10 (amended): a `Get` that returns with nil error returns either
the miss shape (object key and disk path both empty) or a non-empty
disk path; the object key can be empty in a non-miss result only in the
degenerate empty-marker-id case exhibited by the counterexample. -/
theorem c10_get_shape_amended (s : LocalState) (a oid dp : String)
    (h : localGet s a = (oid, dp, none)) :
    (oid = "" ∧ dp = "") ∨ dp ≠ "" := by
  unfold localGet at h
  split at h
  · simp only [Prod.mk.injEq] at h
    exact Or.inl ⟨h.1.symm, h.2.1.symm⟩
  · simp at h
  · split at h
    · simp only [Prod.mk.injEq] at h
      exact Or.inl ⟨h.1.symm, h.2.1.symm⟩
    · split at h
      · simp only [Prod.mk.injEq] at h
        exact Or.inl ⟨h.1.symm, h.2.1.symm⟩
      · split at h
        · simp only [Prod.mk.injEq] at h
          exact Or.inr (h.2.1 ▸ render_ne_empty _ _)
        · simp only [Prod.mk.injEq] at h
          exact Or.inl ⟨h.1.symm, h.2.1.symm⟩

/-- C10 (witness for the amended theorem): on an empty cache, `Get`
returns the miss shape. -/
theorem c10_get_shape_amended_witness :
    (("" : String) = "" ∧ ("" : String) = "") ∨ ("" : String) ≠ "" :=
  c10_get_shape_amended { cacheDir := "/c", files := [] } "aa" "" "" (by decide)

/-! ## Claim C3: remote-tier failures degrade to a miss -/

/-- C3: when the tiered `Get` misses locally, each of the remote
failure modes — remote entry absent (or `GetObject` failing), the
`objectid` metadata missing or nil, the `size` metadata missing, nil,
or unparsable, and the promotion write into the local store failing
(which covers a body download failure) — yields the miss triple
`("", "", nil)`, never a non-nil error. -/
theorem c3_remote_failures_miss (s : LocalState) (remote : RemoteStore) (a : String)
    (hmiss : localGet s a = ("", "", none)) :
    (remote (cosActionKey a) = none → (cosGet s remote a).2 = ("", "", none)) ∧
    (∀ res, remote (cosActionKey a) = some res → lookUpObjectId res.metadata = none →
      (cosGet s remote a).2 = ("", "", none)) ∧
    (∀ res oid, remote (cosActionKey a) = some res →
      lookUpObjectId res.metadata = some oid → lookUpSize res.metadata = none →
      (cosGet s remote a).2 = ("", "", none)) ∧
    (∀ res oid sz e, remote (cosActionKey a) = some res →
      lookUpObjectId res.metadata = some oid → lookUpSize res.metadata = some sz →
      (localPut s a oid res.body).2.2 = some e →
      (cosGet s remote a).2 = ("", "", none)) := by
  refine ⟨?_, ?_, ?_, ?_⟩
  · intro hr
    unfold cosGet
    rw [hmiss]
    simp only []
    rw [if_neg (by simp), hr]
  · intro res hr hoid
    unfold cosGet
    rw [hmiss]
    simp only []
    rw [if_neg (by simp), hr]
    simp only []
    rw [hoid]
  · intro res oid hr hoid hsz
    unfold cosGet
    rw [hmiss]
    simp only []
    rw [if_neg (by simp), hr]
    simp only []
    rw [hoid]
    simp only []
    rw [hsz]
  · intro res oid sz e hr hoid hsz hput
    unfold cosGet
    rw [hmiss]
    simp only []
    rw [if_neg (by simp), hr]
    simp only []
    rw [hoid]
    simp only []
    rw [hsz]
    simp only []
    rcases hp : localPut s a oid res.body with ⟨s2, dp2, e2⟩
    rw [hp] at hput
    simp only [] at hput
    subst hput
    rfl

/-- C3 (witness): on an empty local cache with an unavailable remote,
the tiered `Get` is a miss. -/
theorem c3_remote_failures_miss_witness :
    (cosGet { cacheDir := "/c", files := [] } (fun _ => none) "aa").2 = ("", "", none) :=
  (c3_remote_failures_miss { cacheDir := "/c", files := [] } (fun _ => none) "aa"
    (by decide)).1 rfl

/-! ## Claim C7: minimum-upload threshold boundary -/

/-- C7: for a tiered `Put` whose local write succeeds, when the
resulting local size is exactly one byte below the minimum-upload
threshold, no remote `PutObject` call is made and the local path is
returned with nil error; when the size equals the threshold, the remote
upload is performed. -/
theorem c7_threshold_boundary (s : LocalState) (minUp : Int) (upErr : Option Err)
    (a o payload : String)
    (hobj : isDirAt s (objPath o) = false)
    (hact : isDirAt s (actionPath a) = false) :
    ((payload.length : Int) = minUp - 1 →
      (cosPut s minUp upErr a o ⟨payload, none⟩).2 =
        ((render s.cacheDir (objPath o), none), false)) ∧
    ((payload.length : Int) = minUp →
      (cosPut s minUp upErr a o ⟨payload, none⟩).2 =
        ((render s.cacheDir (objPath o), upErr), true)) := by
  have hstat : statPath (writeFile (writeFile s (objPath o) payload) (actionPath a)
        (o ++ ":" ++ natToDec payload.length)) (render s.cacheDir (objPath o))
      = some (.file payload) := by
    have hne1 : ¬(render s.cacheDir (actionPath a) = render s.cacheDir (objPath o)) :=
      render_action_ne_obj s.cacheDir a o
    have hne2 : ¬(objPath o = actionPath a) := (actionPath_ne_objPath a o).symm
    unfold statPath writeFile
    simp [List.find?_cons, List.filter_cons, hne1, hne2]
  constructor
  · intro hlen
    unfold cosPut
    rw [localPut_ok s a o payload hobj hact]
    simp only []
    rw [hstat]
    simp only [entrySize]
    rw [if_pos (by omega)]
  · intro hlen
    unfold cosPut
    rw [localPut_ok s a o payload hobj hact]
    simp only []
    rw [hstat]
    simp only [entrySize]
    rw [if_neg (by omega)]

/-- C7 (witness): with a 2-byte payload, threshold 3 skips the upload
and threshold 2 performs it. -/
theorem c7_threshold_boundary_witness :
    (cosPut { cacheDir := "/c", files := [] } 3 none "aa" "bb" ⟨"hi", none⟩).2 =
      (("/c/object/bb", none), false) ∧
    (cosPut { cacheDir := "/c", files := [] } 2 none "aa" "bb" ⟨"hi", none⟩).2 =
      (("/c/object/bb", none), true) :=
  ⟨(c7_threshold_boundary { cacheDir := "/c", files := [] } 3 none "aa" "bb" "hi"
      (by decide) (by decide)).1 (by decide),
   (c7_threshold_boundary { cacheDir := "/c", files := [] } 2 none "aa" "bb" "hi"
      (by decide) (by decide)).2 (by decide)⟩

/-! ## Helper lemma: extending a cleanly-consumed stream -/

theorem readerLoop_append (l1 l2 : List StreamItem) :
    ∀ ts, readerLoop l1 = (ts, .eof) →
      readerLoop (l1 ++ l2) = (ts ++ (readerLoop l2).1, (readerLoop l2).2) := by
  induction l1 using readerLoop.induct with
  | case1 =>
    intro ts h
    rw [readerLoop.eq_def] at h
    simp only [Prod.mk.injEq] at h
    rw [← h.1]
    simp
  | case2 b tail =>
    intro ts h
    rw [readerLoop.eq_def] at h
    simp at h
  | case3 r rest h1 h2 =>
    intro ts h
    rw [readerLoop.eq_def] at h
    simp [h1, h2] at h
  | case4 r rest h1 h2 ih =>
    intro ts h
    rw [readerLoop.eq_def] at h
    simp [h1, h2] at h
    obtain ⟨hts, ho⟩ := h
    have heq : readerLoop rest = ((readerLoop rest).1, .eof) := by rw [← ho]
    have hres := ih (readerLoop rest).1 heq
    rw [List.cons_append, readerLoop.eq_def]
    simp [h1, h2, hres, ← hts]
  | case5 r rest h1 h2 h3 =>
    intro ts h
    rw [readerLoop.eq_def] at h
    simp [h1, h2, h3] at h
  | case6 r h1 h2 h3 h4 b rest2 hlen ih =>
    intro ts h
    rw [readerLoop.eq_def] at h
    simp [h1, h2, h3, h4, hlen] at h
    obtain ⟨hts, ho⟩ := h
    have heq : readerLoop rest2 = ((readerLoop rest2).1, .eof) := by rw [← ho]
    have hres := ih (readerLoop rest2).1 heq
    rw [List.cons_append, List.cons_append, readerLoop.eq_def]
    simp [h1, h2, h3, h4, hlen, hres, ← hts]
  | case7 r h1 h2 h3 h4 b rest2 hlen =>
    intro ts h
    rw [readerLoop.eq_def] at h
    simp [h1, h2, h3, h4, hlen] at h
  | case8 r h1 h2 h3 h4 r1 tail =>
    intro ts h
    rw [readerLoop.eq_def] at h
    simp [h1, h2, h3, h4] at h
  | case9 r h1 h2 h3 h4 =>
    intro ts h
    rw [readerLoop.eq_def] at h
    simp [h1, h2, h3, h4] at h
  | case10 r rest h1 h2 h3 h4 ih =>
    intro ts h
    rw [readerLoop.eq_def] at h
    simp [h1, h2, h3, h4] at h
    obtain ⟨hts, ho⟩ := h
    have heq : readerLoop rest = ((readerLoop rest).1, .eof) := by rw [← ho]
    have hres := ih (readerLoop rest).1 heq
    rw [List.cons_append, readerLoop.eq_def]
    simp [h1, h2, h3, h4, hres, ← hts]
  | case11 r rest h1 h2 h3 =>
    intro ts h
    rw [readerLoop.eq_def] at h
    simp [h1, h2, h3] at h
  | case12 r rest h1 h2 h3 =>
    intro ts h
    rw [readerLoop.eq_def] at h
    simp [h1, h2, h3] at h

/-! ## Claim C5: a payload-length mismatch is fatal to the session -/

/-- C5: after any cleanly consumed prefix, a `put` record with positive
declared `bodySize` whose dependent payload has a different length makes
the reader loop stop with the size-mismatch error: no task for it (or
for anything after it) is dispatched beyond those of the prefix, and the
session's `Run` reports an error (per the errgroup modelled from the
spec), not a per-operation response. -/
theorem c5_payload_mismatch_fatal (pre : List StreamItem) (r : ProgRequest) (b : String)
    (rest : List StreamItem) (ts : List Task)
    (hpre : readerLoop pre = (ts, .eof))
    (hcmd : r.command = "put") (hout : r.outputID ≠ "")
    (hsize : 0 < r.bodySize) (hmis : (b.length : Int) ≠ r.bodySize) :
    readerLoop (pre ++ (.req r :: .bytes b :: rest)) = (ts, .errored "size mismatch") ∧
    ∀ closeErr workerErrs,
      runHasError (pre ++ (.req r :: .bytes b :: rest)) closeErr workerErrs = true := by
  have hng : ¬(r.command = "get") := by rw [hcmd]; decide
  have htail : readerLoop (.req r :: .bytes b :: rest) = ([], .errored "size mismatch") := by
    rw [readerLoop.eq_def]
    simp [hng, hcmd, hout, hsize, hmis]
  have happ := readerLoop_append pre (.req r :: .bytes b :: rest) ts hpre
  rw [htail] at happ
  simp only [List.append_nil] at happ
  refine ⟨happ, ?_⟩
  intro ce we
  unfold runHasError
  rw [happ]
  simp

/-- C5 (witness): `bodySize = 10` with a 9-byte payload, followed by a
further `get` request that is never processed. -/
theorem c5_payload_mismatch_fatal_witness :
    readerLoop [StreamItem.req { id := 1, command := "put", actionID := "ab", outputID := "cd", bodySize := 10 }, StreamItem.bytes "123456789", StreamItem.req { id := 2, command := "get", actionID := "ab", outputID := "", bodySize := 0 }] = ([], .errored "size mismatch") ∧
    runHasError [StreamItem.req { id := 1, command := "put", actionID := "ab", outputID := "cd", bodySize := 10 }, StreamItem.bytes "123456789", StreamItem.req { id := 2, command := "get", actionID := "ab", outputID := "", bodySize := 0 }] none [] = true := by
  have h := c5_payload_mismatch_fatal []
    { id := 1, command := "put", actionID := "ab", outputID := "cd", bodySize := 10 }
    "123456789"
    [StreamItem.req { id := 2, command := "get", actionID := "ab", outputID := "", bodySize := 0 }]
    [] rfl rfl (by decide) (by decide) (by decide)
  exact ⟨h.1, h.2 none []⟩

/-! ## Claim C6: which request fields the engine validates -/

/-- C6 (counterexample): a `put` with an empty `actionKey` (and a
non-empty `objectKey`) does not fail the session immediately: the
reader dispatches it as a task and reaches end-of-input with no
protocol-violation error, contradicting the claim that an empty
`actionKey` on `put` is rejected immediately. -/
theorem c6_empty_actionkey_counterexample :
    readerLoop [StreamItem.req { id := 5, command := "put", actionID := "", outputID := "6f", bodySize := 0 }] =
      ([Task.put { id := 5, command := "put", actionID := "", outputID := "6f", bodySize := 0 } ""], .eof) := by
  decide

/-- C6 (amended): the engine validates exactly two request fields: a
`get` with an empty `actionKey` and a `put` with an empty `objectKey`
each stop the reader immediately with a protocol-violation error (and
nothing is dispatched); a `put`'s `actionKey` is not validated. -/
theorem c6_validation_amended (r : ProgRequest) (rest : List StreamItem) :
    (r.command = "get" → r.actionID = "" →
      readerLoop (.req r :: rest) = ([], .errored "invalid ActionID")) ∧
    (r.command = "put" → r.outputID = "" →
      readerLoop (.req r :: rest) = ([], .errored "invalid OutputID")) := by
  constructor
  · intro h1 h2
    rw [readerLoop.eq_def]
    simp [h1, h2]
  · intro h1 h2
    have hng : ¬(r.command = "get") := by rw [h1]; decide
    rw [readerLoop.eq_def]
    simp [hng, h1, h2]

/-- C6 (witness for the amended theorem): an empty-`actionKey` `get`
and an empty-`objectKey` `put` each abort immediately. -/
theorem c6_validation_amended_witness :
    readerLoop [StreamItem.req { id := 1, command := "get", actionID := "", outputID := "", bodySize := 0 }] = ([], .errored "invalid ActionID") ∧
    readerLoop [StreamItem.req { id := 2, command := "put", actionID := "ab", outputID := "", bodySize := 0 }] = ([], .errored "invalid OutputID") :=
  ⟨(c6_validation_amended { id := 1, command := "get", actionID := "", outputID := "", bodySize := 0 } []).1 rfl rfl,
   (c6_validation_amended { id := 2, command := "put", actionID := "ab", outputID := "", bodySize := 0 } []).2 rfl rfl⟩

/-! ## Claim C8: bounded concurrency -/

/-- C8: in every reachable session state, at most `N` worker tasks are
executing storage calls simultaneously: the pool capacity is
`h.workers + 1` and the reader occupies the extra slot while it reads,
so `g.Go` admits a new worker only while fewer than `N` run (the
errgroup's blocking-spawn semantics are modelled from the spec). -/
theorem c8_bounded_concurrency (N : Nat) (input : List StreamItem) (s : EngState)
    (h : EngReach N input s) : s.running ≤ N := by
  induction h with
  | init => exact Nat.zero_le N
  | step hreach hstep ih =>
    cases hstep with
    | dispatch t rest h1 h2 h3 => exact h2
    | readerHalt o h1 h2 => exact ih
    | workerDone h1 => exact le_trans (Nat.sub_le _ _) ih
    | terminate h1 h2 => exact ih

/-- C8 (witness): with budget 2, after dispatching one `put` worker the
bound holds. -/
theorem c8_bounded_concurrency_witness :
    ({ pending := [], readerActive := true, running := 1, closeCalled := false, terminated := false } : EngState).running ≤ 2 :=
  c8_bounded_concurrency 2
    [StreamItem.req { id := 1, command := "put", actionID := "ab", outputID := "cd", bodySize := 0 }] _
    (EngReach.step EngReach.init
      (EngStep.dispatch _ (Task.put { id := 1, command := "put", actionID := "ab", outputID := "cd", bodySize := 0 } "")
        [] rfl (by decide) rfl))

/-! ## Claim C2: shutdown ordering on `close` -/

/-- C2 (counterexample): `provider.Close` can run while a worker is
still executing.  With budget 2 and the stream `put; close`, the reader
dispatches the `put` worker and then reads `close`; `Handler.Run`'s
reader calls `handleClose` — `provider.Close` — right there, before
waiting for the in-flight worker: the state below is reachable with
`closeCalled = true` while one worker is still running. -/
theorem c2_close_counterexample :
    EngReach 2 [StreamItem.req { id := 1, command := "put", actionID := "ab", outputID := "cd", bodySize := 0 }, StreamItem.req { id := 2, command := "close", actionID := "", outputID := "", bodySize := 0 }] { pending := [StreamItem.req { id := 2, command := "close", actionID := "", outputID := "", bodySize := 0 }], readerActive := false, running := 1, closeCalled := true, terminated := false } ∧
    ({ pending := [StreamItem.req { id := 2, command := "close", actionID := "", outputID := "", bodySize := 0 }], readerActive := false, running := 1, closeCalled := true, terminated := false } : EngState).closeCalled = true ∧
    0 < ({ pending := [StreamItem.req { id := 2, command := "close", actionID := "", outputID := "", bodySize := 0 }], readerActive := false, running := 1, closeCalled := true, terminated := false } : EngState).running := by
  refine ⟨?_, rfl, by decide⟩
  have hstep1 : EngStep 2 (initEngState [StreamItem.req { id := 1, command := "put", actionID := "ab", outputID := "cd", bodySize := 0 }, StreamItem.req { id := 2, command := "close", actionID := "", outputID := "", bodySize := 0 }]) { pending := [StreamItem.req { id := 2, command := "close", actionID := "", outputID := "", bodySize := 0 }], readerActive := true, running := 1, closeCalled := false, terminated := false } :=
    EngStep.dispatch _
      (Task.put { id := 1, command := "put", actionID := "ab", outputID := "cd", bodySize := 0 } "")
      [StreamItem.req { id := 2, command := "close", actionID := "", outputID := "", bodySize := 0 }]
      rfl (by decide) rfl
  have hstep2 : EngStep 2 { pending := [StreamItem.req { id := 2, command := "close", actionID := "", outputID := "", bodySize := 0 }], readerActive := true, running := 1, closeCalled := false, terminated := false } { pending := [StreamItem.req { id := 2, command := "close", actionID := "", outputID := "", bodySize := 0 }], readerActive := false, running := 1, closeCalled := true, terminated := false } :=
    EngStep.readerHalt _ .closed rfl rfl
  exact EngReach.step (EngReach.step EngReach.init hstep1) hstep2

/-- C2 (amended): the engine calls `provider.Close` as soon as the
`close` operation is read — possibly while workers are still executing
(see the counterexample) — but the session terminates (`Run` returns)
only after the reader has stopped and every in-flight worker has
finished. -/
theorem c2_drain_amended (N : Nat) (input : List StreamItem) (s : EngState)
    (h : EngReach N input s) (ht : s.terminated = true) :
    s.running = 0 ∧ s.readerActive = false := by
  induction h with
  | init => simp [initEngState] at ht
  | step hreach hstep ih =>
    cases hstep with
    | dispatch t rest h1 h2 h3 =>
      have := (ih ht).2
      rw [h1] at this
      cases this
    | readerHalt o h1 h2 =>
      have := (ih ht).2
      rw [h1] at this
      cases this
    | workerDone h1 =>
      have h0 := (ih ht).1
      omega
    | terminate h1 h2 =>
      exact ⟨h2, h1⟩

/-- C2 (witness for the amended theorem): a session over an empty
stream that reads EOF and terminates. -/
theorem c2_drain_amended_witness :
    ({ pending := [], readerActive := false, running := 0, closeCalled := false, terminated := true } : EngState).running = 0 ∧
    ({ pending := [], readerActive := false, running := 0, closeCalled := false, terminated := true } : EngState).readerActive = false :=
  c2_drain_amended 1 [] _
    (EngReach.step (EngReach.step EngReach.init (EngStep.readerHalt _ .eof rfl rfl))
      (EngStep.terminate _ rfl rfl))
    rfl

end GoCacheProg
